import Mathlib

/-!
Verification development for the c25519 elliptic-curve library
(Curve25519 Montgomery ladder, Ed25519/Wei25519 isomorphisms, ECDSA over
Wei25519).

Field and scalar elements are 32-byte little-endian integers; we embed them
as natural numbers.  The sources of the library that are present
(c25519.c, morph25519.c, ecdsa.c) are embedded statement by statement.
The field layer f25519.c, the scalar layer fprime.c and the Edwards engine
ed25519.c are not part of the available sources; those primitives are
modelled from the specification, as noted on each definition.
-/

set_option maxRecDepth 10000

/-- The field prime p = 2^255 - 19. -/
def p25519 : Nat := 57896044618658097711785492504343953926634992332820282019728792003956564819949

/-- The group order n = 2^252 + 27742317777372353535851937790883648493,
the constant array n in ecdsa.c read as a little-endian integer. -/
def n25519 : Nat := 7237005577332262213973186563042994240857116359379907606001950938285454250989

/-- Fuel-indexed square-and-multiply modular exponentiation; the fuel bounds
the bit length of the exponent. -/
def powModAux (m : Nat) : Nat → Nat → Nat → Nat
  | 0, _, _ => 1 % m
  | fuel+1, b, e =>
    if e = 0 then 1 % m
    else
      let r := powModAux m fuel ((b * b) % m) (e / 2)
      if e % 2 = 1 then (b * r) % m else r

/-- Modular exponentiation b^e mod m for exponents below 2^256, the width of
every exponent used by the library. -/
def powMod (m b e : Nat) : Nat := powModAux m 256 b e

theorem powModAux_eq (m : Nat) :
    ∀ fuel b e, e < 2 ^ fuel → powModAux m fuel b e = b ^ e % m := by
  intro fuel
  induction fuel with
  | zero =>
    intro b e he
    interval_cases e
    simp [powModAux]
  | succ fuel ih =>
    intro b e he
    rw [powModAux]
    by_cases h0 : e = 0
    · simp [h0]
    · have hlt : e / 2 < 2 ^ fuel := by
        have h2 : (2:Nat) ^ (fuel+1) = 2 * 2 ^ fuel := by ring
        omega
      have hr := ih ((b * b) % m) (e / 2) hlt
      have hbb : ((b * b) % m) ^ (e / 2) % m = b ^ (2 * (e / 2)) % m := by
        rw [← Nat.pow_mod, ← pow_two, ← pow_mul]
      simp only [h0, if_false, hr, hbb]
      by_cases hpar : e % 2 = 1
      · simp only [hpar, if_true]
        rw [Nat.mul_mod, Nat.mod_mod_of_dvd _ (dvd_refl m), ← Nat.mul_mod]
        conv_rhs => rw [show e = 2 * (e / 2) + 1 by omega, pow_succ]
        rw [Nat.mul_comm b (b ^ (2 * (e / 2)))]
      · have he2 : 2 * (e / 2) = e := by omega
        simp [hpar, he2]

theorem powMod_eq (m b e : Nat) (h : e < 2 ^ 256) : powMod m b e = b ^ e % m :=
  powModAux_eq m 256 b e h

theorem powModAux_lt (m : Nat) (hm : 0 < m) :
    ∀ fuel b e, powModAux m fuel b e < m := by
  intro fuel
  induction fuel with
  | zero => intro b e; exact Nat.mod_lt _ hm
  | succ fuel ih =>
    intro b e
    rw [powModAux]
    by_cases h0 : e = 0
    · simpa [h0] using Nat.mod_lt 1 hm
    · simp only [h0, if_false]
      by_cases hpar : e % 2 = 1
      · simpa [hpar] using Nat.mod_lt (b * powModAux m fuel (b*b%m) (e/2)) hm
      · simpa [hpar] using ih (b*b%m) (e/2)

theorem powMod_lt (m b e : Nat) (hm : 0 < m) : powMod m b e < m :=
  powModAux_lt m hm 256 b e

/-! ### The field layer F_p.

Modelled from the spec: f25519.c is not under src.  Section 4.1 of the
specification fixes every arithmetic operation only up to congruence
mod p = 2^255-19 (outputs may be non-canonical); the model uses the
canonical representative.  normalize reduces to the canonical residue,
eq compares normalized copies, select is the branchless two-way choice,
inv raises to the power p-2 (Fermat), and sqrt raises to the power
(p+3)/8 with a twist correction by a square root of -1 when the square
of the candidate does not match. -/

def f25519_add (a b : Nat) : Nat := (a + b) % p25519

def f25519_sub (a b : Nat) : Nat := (a + (p25519 - b % p25519)) % p25519

def f25519_neg (a : Nat) : Nat := (p25519 - a % p25519) % p25519

def f25519_mul (a b : Nat) : Nat := a * b % p25519

def f25519_mul_c (a c : Nat) : Nat := a * c % p25519

def f25519_normalize (a : Nat) : Nat := a % p25519

def f25519_eq (a b : Nat) : Bool := a % p25519 == b % p25519

def f25519_select (a b bit : Nat) : Nat := if bit = 0 then a else b

def f25519_inv (a : Nat) : Nat := powMod p25519 a (p25519 - 2)

/-- A square root of -1 mod p: 2 is a non-residue since p = 5 mod 8, so
2^((p-1)/4) squares to -1. -/
def f25519_sqrtm1 : Nat := powMod p25519 2 ((p25519 - 1) / 4)

def f25519_sqrt (a : Nat) : Nat :=
  let r := powMod p25519 a ((p25519 + 3) / 8)
  if r * r % p25519 = a % p25519 then r else r * f25519_sqrtm1 % p25519

/-! ### Constants of morph25519.c (from the source byte arrays, little endian). -/

/-- Curve constant A = 486662 (f25519_A in morph25519.c). -/
def f25519_A : Nat := 486662

/-- The shift delta = (p + A)/3 mod p (f25519_delta in morph25519.c). -/
def f25519_delta : Nat := 0x2aaaaaaaaaaaaaaaaaaaaaaaaaaaaaaaaaaaaaaaaaaaaaaaaaaaaaaaaaad2451

/-- The constant c = sqrt(-(A+2)) mod p (f25519_c in morph25519.c). -/
def f25519_c : Nat := 0x70d9120b9f5ff9442d84f723fc03b0813a5e2c2eb482e57d3391fb5500ba81e7

/-- The Edwards curve constant d (the static array d in morph25519.c and the
Ed25519 curve constant of the spec). -/
def ed25519_d : Nat := 0x52036cee2b6ffe738cc740797779e89800700a4d4141d8ab75eb4dca135978a3

/-! ### The scalar layer F_n.

Modelled from the spec: fprime.c is not under src.  Section 4.2 lists
add, sub, mul, inv, eq and from_bytes over 32-byte residues mod n;
reduction is to the canonical residue, inv is by Fermat with exponent
n-2, eq compares the raw 32-byte values, and from_bytes reduces an
arbitrary 32-byte input mod n. -/

def fprime_from_bytes (x : Nat) : Nat := x % n25519

def fprime_mul (a b : Nat) : Nat := a * b % n25519

def fprime_add (r a : Nat) : Nat := (r + a) % n25519

def fprime_inv (a : Nat) : Nat := powMod n25519 a (n25519 - 2)

def fprime_normalize (a : Nat) : Nat := a % n25519

def fprime_eq (a b : Nat) : Bool := a == b

/-- The helper rshift of ecdsa.c: t right shifts of the 32-byte little-endian
buffer, i.e. division by 2^t of the represented integer. -/
def rshift (a t : Nat) : Nat := a >>> t

/-! ### morph25519.c (embedded from the source). -/

/-- Transforms an Edwards y-coordinate to a Montgomery x-coordinate,
mx = (1 + ey)*(1 - ey)^-1, normalized (morph25519_e2m). -/
def morph25519_e2m (ey : Nat) : Nat :=
  let yplus := f25519_sub 1 ey
  let yminus := f25519_inv yplus
  let yplus2 := f25519_add 1 ey
  f25519_normalize (f25519_mul yplus2 yminus)

/-- Transforms a Montgomery x-coordinate to an Edwards y-coordinate,
ey = (mx - 1)*(mx + 1)^-1 (static mx2ey). -/
def mx2ey (mx : Nat) : Nat :=
  let n1 := f25519_add mx 1
  let d1 := f25519_inv n1
  let n2 := f25519_sub mx 1
  f25519_mul n2 d1

/-- Recovers the Edwards x-coordinate from the y-coordinate and a parity
bit (ey2ex in morph25519.c); returns the coordinate and the verification
bit. -/
def ey2ex (y parity : Nat) : Nat × Bool :=
  let c := f25519_mul y y
  let b := f25519_mul c ed25519_d
  let a := f25519_add b 1
  let b2 := f25519_inv a
  let a2 := f25519_sub c 1
  let c2 := f25519_mul a2 b2
  let a3 := f25519_sqrt c2
  let b3 := f25519_neg a3
  let x := f25519_select a3 b3 ((a3 ^^^ parity) &&& 1)
  let a4 := f25519_normalize (f25519_mul x x)
  let c3 := f25519_normalize c2
  (x, f25519_eq a4 c3)

/-- Transforms a Montgomery x-coordinate to Edwards x- and y-coordinates
(morph25519_m2e); the outputs are normalized after the recovery. -/
def morph25519_m2e (mx parity : Nat) : Nat × Nat × Bool :=
  let ey := mx2ey mx
  let r := ey2ex ey parity
  (f25519_normalize r.1, f25519_normalize ey, r.2)

/-- Weierstrass x to Montgomery x: wx == 0 ? 0 : wx - delta, by a
branchless select (morph25519_wx2mx). -/
def morph25519_wx2mx (wx : Nat) : Nat :=
  let tmp := f25519_normalize (f25519_sub wx f25519_delta)
  f25519_select tmp 0 (if f25519_eq wx 0 then 1 else 0)

/-- Montgomery x to Weierstrass x: mx == 0 ? 0 : mx + delta, by a
branchless select (morph25519_mx2wx). -/
def morph25519_mx2wx (mx : Nat) : Nat :=
  let tmp := f25519_normalize (f25519_add mx f25519_delta)
  f25519_select tmp 0 (if f25519_eq mx 0 then 1 else 0)

/-- Edwards affine point to Weierstrass affine point (morph25519_e2w):
wx = (1+ey)/(1-ey) + delta, wy = c*(1+ey)/((1-ey)*ex), both normalized. -/
def morph25519_e2w (ex ey : Nat) : Nat × Nat :=
  let nom := f25519_add 1 ey
  let den := f25519_sub 1 ey
  let inv := f25519_inv den
  let mul := f25519_mul nom inv
  let wx := f25519_normalize (f25519_add mul f25519_delta)
  let mul2 := f25519_mul f25519_c nom
  let inv2 := f25519_mul den ex
  let den2 := f25519_inv inv2
  let wy := f25519_normalize (f25519_mul mul2 den2)
  (wx, wy)

/-- Weierstrass affine point to Edwards affine point (morph25519_w2e):
pa = 3*wx - A, ex = c*pa/(3*wy), ey = (pa-3)/(pa+3), both normalized. -/
def morph25519_w2e (wx wy : Nat) : Nat × Nat :=
  let i1 := f25519_mul 3 wx
  let pa := f25519_sub i1 f25519_A
  let nom := f25519_mul f25519_c pa
  let den := f25519_mul 3 wy
  let i2 := f25519_inv den
  let ex := f25519_normalize (f25519_mul nom i2)
  let nom2 := f25519_sub pa 3
  let den2 := f25519_add pa 3
  let i3 := f25519_inv den2
  let ey := f25519_normalize (f25519_mul nom2 i3)
  (ex, ey)

/-! ### c25519.c (embedded from the source). -/

/-- The Curve25519 base point x-coordinate (c25519_base_x). -/
def c25519_base_x : Nat := 9

/-- Differential doubling of an X-coordinate pair (xc_double): the
dbl-1987-m formulas. -/
def xc_double (x1 z1 : Nat) : Nat × Nat :=
  let x1sq := f25519_mul x1 x1
  let z1sq := f25519_mul z1 z1
  let x1z1 := f25519_mul x1 z1
  let a := f25519_sub x1sq z1sq
  let x3 := f25519_mul a a
  let a2 := f25519_mul_c x1z1 486662
  let a3 := f25519_add x1sq a2
  let a4 := f25519_add z1sq a3
  let t := f25519_mul x1z1 a4
  let z3 := f25519_mul_c t 4
  (x3, z3)

/-- Differential addition (xc_diffadd): (x1,z1) is the difference of the
summands (x2,z2) and (x3,z3). -/
def xc_diffadd (x1 z1 x2 z2 x3 z3 : Nat) : Nat × Nat :=
  let a := f25519_add x2 z2
  let b := f25519_sub x3 z3
  let da := f25519_mul a b
  let b2 := f25519_sub x2 z2
  let a2 := f25519_add x3 z3
  let cb := f25519_mul a2 b2
  let s := f25519_add da cb
  let s2 := f25519_mul s s
  let x5 := f25519_mul z1 s2
  let t := f25519_sub da cb
  let t2 := f25519_mul t t
  let z5 := f25519_mul x1 t2
  (x5, z5)

/-- One iteration of the ladder loop body of projective_ladder at bit
index i: the two differential additions, the doubling and the four
selects, in the order of the source. -/
def ladderStep (q e i : Nat) (st : (Nat × Nat) × (Nat × Nat)) :
    (Nat × Nat) × (Nat × Nat) :=
  let xm := st.1.1
  let zm := st.1.2
  let xm1 := st.2.1
  let zm1 := st.2.2
  let bit := (e >>> i) &&& 1
  let d1 := xc_diffadd q 1 xm zm xm1 zm1
  let d2 := xc_double xm zm
  let d3 := xc_diffadd d1.1 d1.2 d2.1 d2.2 q 1
  ((f25519_select d2.1 d3.1 bit, f25519_select d2.2 d3.2 bit),
   (f25519_select d1.1 d2.1 bit, f25519_select d1.2 d2.2 bit))

/-- The loop of projective_ladder: iterates the body for i = fuel-1 down
to 0. -/
def ladderIter (q e : Nat) : Nat → (Nat × Nat) × (Nat × Nat) → (Nat × Nat) × (Nat × Nat)
  | 0, st => st
  | i+1, st => ladderIter q e i (ladderStep q e i st)

/-- The ladder with its initial state: xm = q, zm = 1, xm1 = 1, zm1 = 0,
iterating i = 253 down to 0 (projective_ladder). -/
def projective_ladder (q e : Nat) : (Nat × Nat) × (Nat × Nat) :=
  ladderIter q e 254 ((q, 1), (1, 0))

/-- Montgomery-form scalar multiplication (c25519_smult): runs the ladder
and freezes out of projective coordinates by result = normalize(zm^-1 * xm). -/
def c25519_smult (q e : Nat) : Nat :=
  let st := projective_ladder q e
  f25519_normalize (f25519_mul (f25519_inv st.1.2) st.1.1)

/-! ### The Edwards engine.

Modelled from the spec: ed25519.c is not under src.  Section 4.4 requires
point addition, doubling, a constant-time bit-conditional scalar
multiplication, and unprojection to affine coordinates on the twisted
Edwards curve -x^2 + y^2 = 1 + d x^2 y^2.  Points are modelled affinely
(the projective representation divided out), with the complete twisted
Edwards addition law; the base point is the standard Ed25519 generator. -/

def ed25519_base : Nat × Nat :=
  (0x216936d3cd6e53fec0a4e231fdd6dc5c692cc7609525a7b2c9562d608f25d51a,
   0x6666666666666666666666666666666666666666666666666666666666666658)

/-- Twisted Edwards point addition for a = -1:
x3 = (x1 y2 + y1 x2)/(1 + d x1 x2 y1 y2), y3 = (y1 y2 + x1 x2)/(1 - d x1 x2 y1 y2). -/
def ed25519_add (P Q : Nat × Nat) : Nat × Nat :=
  let t := f25519_mul ed25519_d (f25519_mul (f25519_mul P.1 Q.1) (f25519_mul P.2 Q.2))
  (f25519_mul (f25519_add (f25519_mul P.1 Q.2) (f25519_mul P.2 Q.1)) (f25519_inv (f25519_add 1 t)),
   f25519_mul (f25519_add (f25519_mul P.2 Q.2) (f25519_mul P.1 Q.1)) (f25519_inv (f25519_sub 1 t)))

/-- Bit-conditional double-and-add loop of the Edwards scalar
multiplication, from the most significant bit down. -/
def edSmAux (P : Nat × Nat) (k : Nat) : Nat → Nat × Nat → Nat × Nat
  | 0, acc => acc
  | i+1, acc =>
    let acc1 := ed25519_add acc acc
    edSmAux P k i (if (k >>> i) &&& 1 = 1 then ed25519_add acc1 P else acc1)

/-- Edwards scalar multiplication over the 256 bits of the scalar
(ed25519_smult), starting from the neutral point (0, 1). -/
def ed25519_smult (P : Nat × Nat) (k : Nat) : Nat × Nat := edSmAux P k 256 (0, 1)

/-- Unprojection to affine coordinates; in the affine model this is
reduction of both coordinates. -/
def ed25519_unproject (P : Nat × Nat) : Nat × Nat :=
  (f25519_normalize P.1, f25519_normalize P.2)

/-! ### ecdsa.c (embedded from the source). -/

/-- The public-key derivation (ecdsa_pubkey): d*G on the Edwards curve,
unprojected and mapped to Weierstrass form. -/
def ecdsa_pubkey (secret : Nat) : Nat × Nat :=
  let P := ed25519_unproject (ed25519_smult ed25519_base secret)
  morph25519_e2w P.1 P.2

/-- State-passing embedding of ecdsa_sign: the first two arguments are
the initial contents of the caller's r and s buffers, and the result is
the final contents of those buffers together with the return value. -/
def ecdsa_sign_st (r0 s0 d e k : Nat) : Nat × Nat × Nat :=
  if fprime_eq k 0 then (r0, s0, 0)
  else
    let P := ed25519_unproject (ed25519_smult ed25519_base k)
    let W := morph25519_e2w P.1 P.2
    let r := fprime_from_bytes W.1
    if fprime_eq r 0 then (r, s0, 0)
    else
      let t := fprime_mul r d
      let z := fprime_add (rshift e 3) t
      let t2 := fprime_inv k
      let s := fprime_normalize (fprime_mul t2 z)
      if fprime_eq s 0 then (r, s, 0) else (r, s, 1)

/-- The signature as seen by the caller: the pair (r, s) on success,
nothing on a zero return. -/
def ecdsa_sign (d e k : Nat) : Option (Nat × Nat) :=
  let out := ecdsa_sign_st 0 0 d e k
  if out.2.2 = 1 then some (out.1, out.2.1) else none

/-- The value the final comparison of ecdsa_verify checks against r: the
Weierstrass x-coordinate of u1*G + u2*Q, normalized mod n. -/
def ecdsa_verify_wx (x y e s : Nat) (r : Nat) : Nat :=
  let z := rshift e 3
  let w := fprime_inv s
  let u1 := fprime_mul z w
  let u2 := fprime_mul r w
  let Q := morph25519_w2e x y
  let p1 := ed25519_smult ed25519_base u1
  let p2 := ed25519_smult Q u2
  let R := ed25519_unproject (ed25519_add p1 p2)
  let W := morph25519_e2w R.1 R.2
  fprime_normalize W.1

/-- The signature check (ecdsa_verify): 1 when the recomputed x-coordinate
equals r, else 0; no range check of r or s is performed. -/
def ecdsa_verify (x y e r s : Nat) : Nat :=
  if f25519_eq (ecdsa_verify_wx x y e s r) r then 1 else 0

/-! ### Primality of p = 2^255 - 19.

The Lucas primality criterion is applied along a chain of witnesses; each
factor too large for norm_num gets its own Lucas certificate. -/

theorem zmodPow_eq_powMod (q a e : Nat) (he : e < 2 ^ 256) :
    ((a : ℕ) : ZMod q) ^ e = ((powMod q a e : ℕ) : ZMod q) := by
  rw [powMod_eq q a e he, ZMod.natCast_mod, Nat.cast_pow]

theorem powMod_pow_eq_one (q a : Nat) (he : q - 1 < 2 ^ 256)
    (h1 : powMod q a (q - 1) = 1) : ((a : ℕ) : ZMod q) ^ (q - 1) = 1 := by
  rw [zmodPow_eq_powMod q a (q - 1) he, h1, Nat.cast_one]

theorem powMod_pow_ne_one (q a e : Nat) (hq : 1 < q) (he : e < 2 ^ 256)
    (h1 : powMod q a e ≠ 1) : ((a : ℕ) : ZMod q) ^ e ≠ 1 := by
  haveI : NeZero q := ⟨by omega⟩
  haveI : Fact (1 < q) := ⟨hq⟩
  rw [zmodPow_eq_powMod q a e he]
  intro h
  apply h1
  have h1v : (((powMod q a e : ℕ)) : ZMod q).val = (1 : ZMod q).val := by rw [h]
  rwa [ZMod.val_cast_of_lt (powMod_lt q a e (by omega)), ZMod.val_one] at h1v

theorem prime_2773320623 : Nat.Prime 2773320623 := by
  refine lucas_primality 2773320623 ((5 : ℕ) : ZMod 2773320623) ?_ ?_
  · exact powMod_pow_eq_one 2773320623 5 (by decide) (by decide)
  · intro r hr hdvd
    have hfact : 2773320623 - 1 = 2 ^ 1 * (2437 ^ 1 * (569003 ^ 1)) := by decide
    rw [hfact] at hdvd
    rcases (Nat.Prime.dvd_mul hr).mp hdvd with h | hdvd
    · have hre : r = 2 := (Nat.prime_dvd_prime_iff_eq hr (by norm_num)).mp (hr.dvd_of_dvd_pow h)
      subst hre
      exact powMod_pow_ne_one 2773320623 5 ((2773320623 - 1) / 2) (by decide) (by decide) (by decide)
    rcases (Nat.Prime.dvd_mul hr).mp hdvd with h | hdvd
    · have hre : r = 2437 := (Nat.prime_dvd_prime_iff_eq hr (by norm_num)).mp (hr.dvd_of_dvd_pow h)
      subst hre
      exact powMod_pow_ne_one 2773320623 5 ((2773320623 - 1) / 2437) (by decide) (by decide) (by decide)
    have hre : r = 569003 := (Nat.prime_dvd_prime_iff_eq hr (by norm_num)).mp (hr.dvd_of_dvd_pow hdvd)
    subst hre
    exact powMod_pow_ne_one 2773320623 5 ((2773320623 - 1) / 569003) (by decide) (by decide) (by decide)

theorem prime_72106336199 : Nat.Prime 72106336199 := by
  refine lucas_primality 72106336199 ((7 : ℕ) : ZMod 72106336199) ?_ ?_
  · exact powMod_pow_eq_one 72106336199 7 (by decide) (by decide)
  · intro r hr hdvd
    have hfact : 72106336199 - 1 = 2 ^ 1 * (13 ^ 1 * (2773320623 ^ 1)) := by decide
    rw [hfact] at hdvd
    rcases (Nat.Prime.dvd_mul hr).mp hdvd with h | hdvd
    · have hre : r = 2 := (Nat.prime_dvd_prime_iff_eq hr (by norm_num)).mp (hr.dvd_of_dvd_pow h)
      subst hre
      exact powMod_pow_ne_one 72106336199 7 ((72106336199 - 1) / 2) (by decide) (by decide) (by decide)
    rcases (Nat.Prime.dvd_mul hr).mp hdvd with h | hdvd
    · have hre : r = 13 := (Nat.prime_dvd_prime_iff_eq hr (by norm_num)).mp (hr.dvd_of_dvd_pow h)
      subst hre
      exact powMod_pow_ne_one 72106336199 7 ((72106336199 - 1) / 13) (by decide) (by decide) (by decide)
    have hre : r = 2773320623 := (Nat.prime_dvd_prime_iff_eq hr prime_2773320623).mp (hr.dvd_of_dvd_pow hdvd)
    subst hre
    exact powMod_pow_ne_one 72106336199 7 ((72106336199 - 1) / 2773320623) (by decide) (by decide) (by decide)

theorem prime_1919519569386763 : Nat.Prime 1919519569386763 := by
  refine lucas_primality 1919519569386763 ((2 : ℕ) : ZMod 1919519569386763) ?_ ?_
  · exact powMod_pow_eq_one 1919519569386763 2 (by decide) (by decide)
  · intro r hr hdvd
    have hfact : 1919519569386763 - 1 = 2 ^ 1 * (3 ^ 1 * (7 ^ 1 * (19 ^ 1 * (47 ^ 2 * (127 ^ 1 * (8574133 ^ 1)))))) := by decide
    rw [hfact] at hdvd
    rcases (Nat.Prime.dvd_mul hr).mp hdvd with h | hdvd
    · have hre : r = 2 := (Nat.prime_dvd_prime_iff_eq hr (by norm_num)).mp (hr.dvd_of_dvd_pow h)
      subst hre
      exact powMod_pow_ne_one 1919519569386763 2 ((1919519569386763 - 1) / 2) (by decide) (by decide) (by decide)
    rcases (Nat.Prime.dvd_mul hr).mp hdvd with h | hdvd
    · have hre : r = 3 := (Nat.prime_dvd_prime_iff_eq hr (by norm_num)).mp (hr.dvd_of_dvd_pow h)
      subst hre
      exact powMod_pow_ne_one 1919519569386763 2 ((1919519569386763 - 1) / 3) (by decide) (by decide) (by decide)
    rcases (Nat.Prime.dvd_mul hr).mp hdvd with h | hdvd
    · have hre : r = 7 := (Nat.prime_dvd_prime_iff_eq hr (by norm_num)).mp (hr.dvd_of_dvd_pow h)
      subst hre
      exact powMod_pow_ne_one 1919519569386763 2 ((1919519569386763 - 1) / 7) (by decide) (by decide) (by decide)
    rcases (Nat.Prime.dvd_mul hr).mp hdvd with h | hdvd
    · have hre : r = 19 := (Nat.prime_dvd_prime_iff_eq hr (by norm_num)).mp (hr.dvd_of_dvd_pow h)
      subst hre
      exact powMod_pow_ne_one 1919519569386763 2 ((1919519569386763 - 1) / 19) (by decide) (by decide) (by decide)
    rcases (Nat.Prime.dvd_mul hr).mp hdvd with h | hdvd
    · have hre : r = 47 := (Nat.prime_dvd_prime_iff_eq hr (by norm_num)).mp (hr.dvd_of_dvd_pow h)
      subst hre
      exact powMod_pow_ne_one 1919519569386763 2 ((1919519569386763 - 1) / 47) (by decide) (by decide) (by decide)
    rcases (Nat.Prime.dvd_mul hr).mp hdvd with h | hdvd
    · have hre : r = 127 := (Nat.prime_dvd_prime_iff_eq hr (by norm_num)).mp (hr.dvd_of_dvd_pow h)
      subst hre
      exact powMod_pow_ne_one 1919519569386763 2 ((1919519569386763 - 1) / 127) (by decide) (by decide) (by decide)
    have hre : r = 8574133 := (Nat.prime_dvd_prime_iff_eq hr (by norm_num)).mp (hr.dvd_of_dvd_pow hdvd)
    subst hre
    exact powMod_pow_ne_one 1919519569386763 2 ((1919519569386763 - 1) / 8574133) (by decide) (by decide) (by decide)

theorem prime_31757755568855353 : Nat.Prime 31757755568855353 := by
  refine lucas_primality 31757755568855353 ((10 : ℕ) : ZMod 31757755568855353) ?_ ?_
  · exact powMod_pow_eq_one 31757755568855353 10 (by decide) (by decide)
  · intro r hr hdvd
    have hfact : 31757755568855353 - 1 = 2 ^ 3 * (3 ^ 1 * (31 ^ 1 * (107 ^ 1 * (223 ^ 1 * (4153 ^ 1 * (430751 ^ 1)))))) := by decide
    rw [hfact] at hdvd
    rcases (Nat.Prime.dvd_mul hr).mp hdvd with h | hdvd
    · have hre : r = 2 := (Nat.prime_dvd_prime_iff_eq hr (by norm_num)).mp (hr.dvd_of_dvd_pow h)
      subst hre
      exact powMod_pow_ne_one 31757755568855353 10 ((31757755568855353 - 1) / 2) (by decide) (by decide) (by decide)
    rcases (Nat.Prime.dvd_mul hr).mp hdvd with h | hdvd
    · have hre : r = 3 := (Nat.prime_dvd_prime_iff_eq hr (by norm_num)).mp (hr.dvd_of_dvd_pow h)
      subst hre
      exact powMod_pow_ne_one 31757755568855353 10 ((31757755568855353 - 1) / 3) (by decide) (by decide) (by decide)
    rcases (Nat.Prime.dvd_mul hr).mp hdvd with h | hdvd
    · have hre : r = 31 := (Nat.prime_dvd_prime_iff_eq hr (by norm_num)).mp (hr.dvd_of_dvd_pow h)
      subst hre
      exact powMod_pow_ne_one 31757755568855353 10 ((31757755568855353 - 1) / 31) (by decide) (by decide) (by decide)
    rcases (Nat.Prime.dvd_mul hr).mp hdvd with h | hdvd
    · have hre : r = 107 := (Nat.prime_dvd_prime_iff_eq hr (by norm_num)).mp (hr.dvd_of_dvd_pow h)
      subst hre
      exact powMod_pow_ne_one 31757755568855353 10 ((31757755568855353 - 1) / 107) (by decide) (by decide) (by decide)
    rcases (Nat.Prime.dvd_mul hr).mp hdvd with h | hdvd
    · have hre : r = 223 := (Nat.prime_dvd_prime_iff_eq hr (by norm_num)).mp (hr.dvd_of_dvd_pow h)
      subst hre
      exact powMod_pow_ne_one 31757755568855353 10 ((31757755568855353 - 1) / 223) (by decide) (by decide) (by decide)
    rcases (Nat.Prime.dvd_mul hr).mp hdvd with h | hdvd
    · have hre : r = 4153 := (Nat.prime_dvd_prime_iff_eq hr (by norm_num)).mp (hr.dvd_of_dvd_pow h)
      subst hre
      exact powMod_pow_ne_one 31757755568855353 10 ((31757755568855353 - 1) / 4153) (by decide) (by decide) (by decide)
    have hre : r = 430751 := (Nat.prime_dvd_prime_iff_eq hr (by norm_num)).mp (hr.dvd_of_dvd_pow hdvd)
    subst hre
    exact powMod_pow_ne_one 31757755568855353 10 ((31757755568855353 - 1) / 430751) (by decide) (by decide) (by decide)

theorem prime_75445702479781427272750846543864801 : Nat.Prime 75445702479781427272750846543864801 := by
  refine lucas_primality 75445702479781427272750846543864801 ((7 : ℕ) : ZMod 75445702479781427272750846543864801) ?_ ?_
  · exact powMod_pow_eq_one 75445702479781427272750846543864801 7 (by decide) (by decide)
  · intro r hr hdvd
    have hfact : 75445702479781427272750846543864801 - 1 = 2 ^ 5 * (3 ^ 2 * (5 ^ 2 * (75707 ^ 1 * (72106336199 ^ 1 * (1919519569386763 ^ 1))))) := by decide
    rw [hfact] at hdvd
    rcases (Nat.Prime.dvd_mul hr).mp hdvd with h | hdvd
    · have hre : r = 2 := (Nat.prime_dvd_prime_iff_eq hr (by norm_num)).mp (hr.dvd_of_dvd_pow h)
      subst hre
      exact powMod_pow_ne_one 75445702479781427272750846543864801 7 ((75445702479781427272750846543864801 - 1) / 2) (by decide) (by decide) (by decide)
    rcases (Nat.Prime.dvd_mul hr).mp hdvd with h | hdvd
    · have hre : r = 3 := (Nat.prime_dvd_prime_iff_eq hr (by norm_num)).mp (hr.dvd_of_dvd_pow h)
      subst hre
      exact powMod_pow_ne_one 75445702479781427272750846543864801 7 ((75445702479781427272750846543864801 - 1) / 3) (by decide) (by decide) (by decide)
    rcases (Nat.Prime.dvd_mul hr).mp hdvd with h | hdvd
    · have hre : r = 5 := (Nat.prime_dvd_prime_iff_eq hr (by norm_num)).mp (hr.dvd_of_dvd_pow h)
      subst hre
      exact powMod_pow_ne_one 75445702479781427272750846543864801 7 ((75445702479781427272750846543864801 - 1) / 5) (by decide) (by decide) (by decide)
    rcases (Nat.Prime.dvd_mul hr).mp hdvd with h | hdvd
    · have hre : r = 75707 := (Nat.prime_dvd_prime_iff_eq hr (by norm_num)).mp (hr.dvd_of_dvd_pow h)
      subst hre
      exact powMod_pow_ne_one 75445702479781427272750846543864801 7 ((75445702479781427272750846543864801 - 1) / 75707) (by decide) (by decide) (by decide)
    rcases (Nat.Prime.dvd_mul hr).mp hdvd with h | hdvd
    · have hre : r = 72106336199 := (Nat.prime_dvd_prime_iff_eq hr prime_72106336199).mp (hr.dvd_of_dvd_pow h)
      subst hre
      exact powMod_pow_ne_one 75445702479781427272750846543864801 7 ((75445702479781427272750846543864801 - 1) / 72106336199) (by decide) (by decide) (by decide)
    have hre : r = 1919519569386763 := (Nat.prime_dvd_prime_iff_eq hr prime_1919519569386763).mp (hr.dvd_of_dvd_pow hdvd)
    subst hre
    exact powMod_pow_ne_one 75445702479781427272750846543864801 7 ((75445702479781427272750846543864801 - 1) / 1919519569386763) (by decide) (by decide) (by decide)

theorem prime_74058212732561358302231226437062788676166966415465897661863160754340907 : Nat.Prime 74058212732561358302231226437062788676166966415465897661863160754340907 := by
  refine lucas_primality 74058212732561358302231226437062788676166966415465897661863160754340907 ((2 : ℕ) : ZMod 74058212732561358302231226437062788676166966415465897661863160754340907) ?_ ?_
  · exact powMod_pow_eq_one 74058212732561358302231226437062788676166966415465897661863160754340907 2 (by decide) (by decide)
  · intro r hr hdvd
    have hfact : 74058212732561358302231226437062788676166966415465897661863160754340907 - 1 = 2 ^ 1 * (3 ^ 1 * (353 ^ 1 * (57467 ^ 1 * (132049 ^ 1 * (1923133 ^ 1 * (31757755568855353 ^ 1 * (75445702479781427272750846543864801 ^ 1))))))) := by decide
    rw [hfact] at hdvd
    rcases (Nat.Prime.dvd_mul hr).mp hdvd with h | hdvd
    · have hre : r = 2 := (Nat.prime_dvd_prime_iff_eq hr (by norm_num)).mp (hr.dvd_of_dvd_pow h)
      subst hre
      exact powMod_pow_ne_one 74058212732561358302231226437062788676166966415465897661863160754340907 2 ((74058212732561358302231226437062788676166966415465897661863160754340907 - 1) / 2) (by decide) (by decide) (by decide)
    rcases (Nat.Prime.dvd_mul hr).mp hdvd with h | hdvd
    · have hre : r = 3 := (Nat.prime_dvd_prime_iff_eq hr (by norm_num)).mp (hr.dvd_of_dvd_pow h)
      subst hre
      exact powMod_pow_ne_one 74058212732561358302231226437062788676166966415465897661863160754340907 2 ((74058212732561358302231226437062788676166966415465897661863160754340907 - 1) / 3) (by decide) (by decide) (by decide)
    rcases (Nat.Prime.dvd_mul hr).mp hdvd with h | hdvd
    · have hre : r = 353 := (Nat.prime_dvd_prime_iff_eq hr (by norm_num)).mp (hr.dvd_of_dvd_pow h)
      subst hre
      exact powMod_pow_ne_one 74058212732561358302231226437062788676166966415465897661863160754340907 2 ((74058212732561358302231226437062788676166966415465897661863160754340907 - 1) / 353) (by decide) (by decide) (by decide)
    rcases (Nat.Prime.dvd_mul hr).mp hdvd with h | hdvd
    · have hre : r = 57467 := (Nat.prime_dvd_prime_iff_eq hr (by norm_num)).mp (hr.dvd_of_dvd_pow h)
      subst hre
      exact powMod_pow_ne_one 74058212732561358302231226437062788676166966415465897661863160754340907 2 ((74058212732561358302231226437062788676166966415465897661863160754340907 - 1) / 57467) (by decide) (by decide) (by decide)
    rcases (Nat.Prime.dvd_mul hr).mp hdvd with h | hdvd
    · have hre : r = 132049 := (Nat.prime_dvd_prime_iff_eq hr (by norm_num)).mp (hr.dvd_of_dvd_pow h)
      subst hre
      exact powMod_pow_ne_one 74058212732561358302231226437062788676166966415465897661863160754340907 2 ((74058212732561358302231226437062788676166966415465897661863160754340907 - 1) / 132049) (by decide) (by decide) (by decide)
    rcases (Nat.Prime.dvd_mul hr).mp hdvd with h | hdvd
    · have hre : r = 1923133 := (Nat.prime_dvd_prime_iff_eq hr (by norm_num)).mp (hr.dvd_of_dvd_pow h)
      subst hre
      exact powMod_pow_ne_one 74058212732561358302231226437062788676166966415465897661863160754340907 2 ((74058212732561358302231226437062788676166966415465897661863160754340907 - 1) / 1923133) (by decide) (by decide) (by decide)
    rcases (Nat.Prime.dvd_mul hr).mp hdvd with h | hdvd
    · have hre : r = 31757755568855353 := (Nat.prime_dvd_prime_iff_eq hr prime_31757755568855353).mp (hr.dvd_of_dvd_pow h)
      subst hre
      exact powMod_pow_ne_one 74058212732561358302231226437062788676166966415465897661863160754340907 2 ((74058212732561358302231226437062788676166966415465897661863160754340907 - 1) / 31757755568855353) (by decide) (by decide) (by decide)
    have hre : r = 75445702479781427272750846543864801 := (Nat.prime_dvd_prime_iff_eq hr prime_75445702479781427272750846543864801).mp (hr.dvd_of_dvd_pow hdvd)
    subst hre
    exact powMod_pow_ne_one 74058212732561358302231226437062788676166966415465897661863160754340907 2 ((74058212732561358302231226437062788676166966415465897661863160754340907 - 1) / 75445702479781427272750846543864801) (by decide) (by decide) (by decide)

theorem prime_p25519 : Nat.Prime 57896044618658097711785492504343953926634992332820282019728792003956564819949 := by
  refine lucas_primality 57896044618658097711785492504343953926634992332820282019728792003956564819949 ((2 : ℕ) : ZMod 57896044618658097711785492504343953926634992332820282019728792003956564819949) ?_ ?_
  · exact powMod_pow_eq_one 57896044618658097711785492504343953926634992332820282019728792003956564819949 2 (by decide) (by decide)
  · intro r hr hdvd
    have hfact : 57896044618658097711785492504343953926634992332820282019728792003956564819949 - 1 = 2 ^ 2 * (3 ^ 1 * (65147 ^ 1 * (74058212732561358302231226437062788676166966415465897661863160754340907 ^ 1))) := by decide
    rw [hfact] at hdvd
    rcases (Nat.Prime.dvd_mul hr).mp hdvd with h | hdvd
    · have hre : r = 2 := (Nat.prime_dvd_prime_iff_eq hr (by norm_num)).mp (hr.dvd_of_dvd_pow h)
      subst hre
      exact powMod_pow_ne_one 57896044618658097711785492504343953926634992332820282019728792003956564819949 2 ((57896044618658097711785492504343953926634992332820282019728792003956564819949 - 1) / 2) (by decide) (by decide) (by decide)
    rcases (Nat.Prime.dvd_mul hr).mp hdvd with h | hdvd
    · have hre : r = 3 := (Nat.prime_dvd_prime_iff_eq hr (by norm_num)).mp (hr.dvd_of_dvd_pow h)
      subst hre
      exact powMod_pow_ne_one 57896044618658097711785492504343953926634992332820282019728792003956564819949 2 ((57896044618658097711785492504343953926634992332820282019728792003956564819949 - 1) / 3) (by decide) (by decide) (by decide)
    rcases (Nat.Prime.dvd_mul hr).mp hdvd with h | hdvd
    · have hre : r = 65147 := (Nat.prime_dvd_prime_iff_eq hr (by norm_num)).mp (hr.dvd_of_dvd_pow h)
      subst hre
      exact powMod_pow_ne_one 57896044618658097711785492504343953926634992332820282019728792003956564819949 2 ((57896044618658097711785492504343953926634992332820282019728792003956564819949 - 1) / 65147) (by decide) (by decide) (by decide)
    have hre : r = 74058212732561358302231226437062788676166966415465897661863160754340907 := (Nat.prime_dvd_prime_iff_eq hr prime_74058212732561358302231226437062788676166966415465897661863160754340907).mp (hr.dvd_of_dvd_pow hdvd)
    subst hre
    exact powMod_pow_ne_one 57896044618658097711785492504343953926634992332820282019728792003956564819949 2 ((57896044618658097711785492504343953926634992332820282019728792003956564819949 - 1) / 74058212732561358302231226437062788676166966415465897661863160754340907) (by decide) (by decide) (by decide)

instance fact_prime_p25519 : Fact (Nat.Prime p25519) := ⟨prime_p25519⟩


/-! ### Casting the field layer into ZMod p. -/

theorem p25519_pos : 0 < p25519 := by norm_num [p25519]

theorem f25519_add_cast (a b : Nat) :
    ((f25519_add a b : ℕ) : ZMod p25519) = (a : ZMod p25519) + b := by
  unfold f25519_add
  rw [ZMod.natCast_mod, Nat.cast_add]

theorem f25519_sub_cast (a b : Nat) :
    ((f25519_sub a b : ℕ) : ZMod p25519) = (a : ZMod p25519) - b := by
  unfold f25519_sub
  rw [ZMod.natCast_mod, Nat.cast_add,
    Nat.cast_sub (le_of_lt (Nat.mod_lt _ p25519_pos)),
    ZMod.natCast_self, ZMod.natCast_mod]
  ring

theorem f25519_neg_cast (a : Nat) :
    ((f25519_neg a : ℕ) : ZMod p25519) = -(a : ZMod p25519) := by
  unfold f25519_neg
  rw [ZMod.natCast_mod,
    Nat.cast_sub (le_of_lt (Nat.mod_lt _ p25519_pos)),
    ZMod.natCast_self, ZMod.natCast_mod]
  ring

theorem f25519_mul_cast (a b : Nat) :
    ((f25519_mul a b : ℕ) : ZMod p25519) = (a : ZMod p25519) * b := by
  unfold f25519_mul
  rw [ZMod.natCast_mod, Nat.cast_mul]

theorem f25519_mul_c_cast (a c : Nat) :
    ((f25519_mul_c a c : ℕ) : ZMod p25519) = (a : ZMod p25519) * c := by
  unfold f25519_mul_c
  rw [ZMod.natCast_mod, Nat.cast_mul]

theorem f25519_normalize_cast (a : Nat) :
    ((f25519_normalize a : ℕ) : ZMod p25519) = (a : ZMod p25519) := by
  unfold f25519_normalize
  rw [ZMod.natCast_mod]

theorem zmod_pow_sub_two_eq_inv (a : ZMod p25519) : a ^ (p25519 - 2) = a⁻¹ := by
  by_cases ha : a = 0
  · subst ha
    rw [zero_pow (by norm_num [p25519]), inv_zero]
  · have h1 : a ^ (p25519 - 1) = 1 := ZMod.pow_card_sub_one_eq_one ha
    have h2 : a ^ (p25519 - 2) * a = 1 := by
      rw [← pow_succ, show p25519 - 2 + 1 = p25519 - 1 by norm_num [p25519], h1]
    exact eq_inv_of_mul_eq_one_left h2

theorem f25519_inv_cast (a : Nat) :
    ((f25519_inv a : ℕ) : ZMod p25519) = (a : ZMod p25519)⁻¹ := by
  unfold f25519_inv
  rw [← zmodPow_eq_powMod p25519 a (p25519 - 2) (by decide)]
  exact zmod_pow_sub_two_eq_inv _

theorem f25519_normalize_lt (a : Nat) : f25519_normalize a < p25519 :=
  Nat.mod_lt _ p25519_pos

theorem f25519_eq_iff (a b : Nat) :
    f25519_eq a b = true ↔ (a : ZMod p25519) = (b : ZMod p25519) := by
  unfold f25519_eq
  rw [beq_iff_eq]
  constructor
  · intro h
    rw [← ZMod.natCast_mod, h, ZMod.natCast_mod]
  · intro h
    have ha := ZMod.val_cast_of_lt (n := p25519) (Nat.mod_lt a p25519_pos)
    have hb := ZMod.val_cast_of_lt (n := p25519) (Nat.mod_lt b p25519_pos)
    rw [← ha, ← hb, ZMod.natCast_mod, ZMod.natCast_mod, h]

/-- C5: the differential doubling xc_double produces, for all 32-byte
inputs, outputs congruent mod p to X3 = (X1^2 - Z1^2)^2 and
Z3 = 4 X1 Z1 (X1^2 + 486662 X1 Z1 + Z1^2). -/
theorem xc_double_formulas (x1 z1 : Nat) :
    (((xc_double x1 z1).1 : ℕ) : ZMod p25519) =
      ((x1 : ZMod p25519) ^ 2 - (z1 : ZMod p25519) ^ 2) ^ 2 ∧
    (((xc_double x1 z1).2 : ℕ) : ZMod p25519) =
      4 * (x1 : ZMod p25519) * (z1 : ZMod p25519) *
        ((x1 : ZMod p25519) ^ 2 + 486662 * (x1 : ZMod p25519) * (z1 : ZMod p25519)
          + (z1 : ZMod p25519) ^ 2) := by
  unfold xc_double
  constructor <;>
  · simp only [f25519_mul_cast, f25519_mul_c_cast, f25519_add_cast, f25519_sub_cast]
    push_cast
    ring

instance : NeZero p25519 := ⟨by norm_num [p25519]⟩

/-- C8: both x-coordinate shift maps follow the zero convention computed
with a branchless select: mx2wx returns 0 when mx = 0 mod p and the
canonical residue of mx + delta otherwise; wx2mx returns 0 when wx = 0
mod p and the canonical residue of wx - delta otherwise. -/
theorem shift_maps_zero_convention (a : Nat) :
    morph25519_mx2wx a = (if a % p25519 = 0 then 0 else (a + f25519_delta) % p25519)
    ∧ morph25519_wx2mx a =
        (if a % p25519 = 0 then 0
         else ((a : ZMod p25519) - ((f25519_delta : ℕ) : ZMod p25519)).val) := by
  constructor
  · unfold morph25519_mx2wx f25519_eq f25519_select f25519_normalize f25519_add
    rw [Nat.zero_mod, Nat.mod_mod_of_dvd _ (dvd_refl _)]
    by_cases h : a % p25519 = 0
    · simp [h]
    · simp [h]
  · have hvlt : f25519_normalize (f25519_sub a f25519_delta) < p25519 :=
      f25519_normalize_lt _
    have hv : ((f25519_normalize (f25519_sub a f25519_delta) : ℕ) : ZMod p25519)
        = (a : ZMod p25519) - ((f25519_delta : ℕ) : ZMod p25519) := by
      rw [f25519_normalize_cast, f25519_sub_cast]
    have hval : f25519_normalize (f25519_sub a f25519_delta)
        = ((a : ZMod p25519) - ((f25519_delta : ℕ) : ZMod p25519)).val := by
      rw [← hv, ZMod.val_cast_of_lt hvlt]
    unfold morph25519_wx2mx f25519_eq f25519_select
    rw [Nat.zero_mod]
    by_cases h : a % p25519 = 0
    · simp [h]
    · simpa [h] using hval

/-- C9: for every 32-byte input the conversion outputs are canonical
residues in [0, p): the mx produced by morph25519_e2m and the ex and ey
produced by morph25519_m2e, the latter for every parity and in
particular irrespective of the returned ok bit. -/
theorem conversions_normalized (ey mx parity : Nat) :
    morph25519_e2m ey < p25519 ∧
    (morph25519_m2e mx parity).1 < p25519 ∧
    (morph25519_m2e mx parity).2.1 < p25519 :=
  ⟨f25519_normalize_lt _, f25519_normalize_lt _, f25519_normalize_lt _⟩

/-! ### Claim C6: the ey2ex recovery. -/

/-- The value t = (y^2 - 1) * (1 + d y^2)^-1 computed inside ey2ex. -/
def ey2ex_t (y : Nat) : Nat :=
  f25519_mul (f25519_sub (f25519_mul y y) 1)
    (f25519_inv (f25519_add (f25519_mul (f25519_mul y y) ed25519_d) 1))

/-- The square-root candidate a = sqrt(t) computed inside ey2ex. -/
def ey2ex_cand (y : Nat) : Nat := f25519_sqrt (ey2ex_t y)

theorem f25519_sqrt_lt (a : Nat) : f25519_sqrt a < p25519 := by
  unfold f25519_sqrt
  simp only []
  split
  · exact powMod_lt _ _ _ p25519_pos
  · exact Nat.mod_lt _ p25519_pos

theorem xor_and_one (a b : Nat) : ((a ^^^ b) &&& 1 = 0) ↔ (a % 2 = b % 2) := by
  rw [Nat.and_one_is_mod]
  have h1 := @Nat.xor_mod_two_eq_one a b
  omega

/-- The select of ey2ex between a and -a on the parity bit: when a is
nonzero the selected value has the required low bit, when a is zero the
selected value is zero. -/
theorem select_neg_parity (a parity : Nat) (ha : a < p25519) :
    ((f25519_select a (f25519_neg a) ((a ^^^ parity) &&& 1)) ^^^ parity) &&& 1 = 0
    ∨ (a = 0 ∧ f25519_select a (f25519_neg a) ((a ^^^ parity) &&& 1) = 0) := by
  by_cases h0 : a = 0
  · right
    refine ⟨h0, ?_⟩
    subst h0
    unfold f25519_select f25519_neg
    split
    · rfl
    · simp [Nat.zero_mod, Nat.mod_self]
  · left
    unfold f25519_select f25519_neg
    by_cases hbit : (a ^^^ parity) &&& 1 = 0
    · simp [hbit]
    · simp only [hbit, if_false]
      rw [Nat.mod_eq_of_lt ha]
      have hlt : p25519 - a < p25519 := by omega
      rw [Nat.mod_eq_of_lt hlt]
      rw [xor_and_one] at hbit ⊢
      have hodd : p25519 % 2 = 1 := by decide
      omega

theorem f25519_eq_normalize_iff (a b : Nat) :
    (f25519_eq (f25519_normalize (f25519_mul a a)) (f25519_normalize b) = true)
      ↔ (a * a % p25519 = b % p25519) := by
  have hmm : ∀ x : Nat, x % p25519 % p25519 = x % p25519 :=
    fun x => Nat.mod_mod_of_dvd x (dvd_refl _)
  unfold f25519_eq f25519_normalize f25519_mul
  simp only [hmm, beq_iff_eq]

theorem ey2ex_snd_eq (y parity : Nat) :
    (ey2ex y parity).2 =
      f25519_eq (f25519_normalize (f25519_mul (ey2ex y parity).1 (ey2ex y parity).1))
        (f25519_normalize (ey2ex_t y)) := rfl

/-- C6 (amended): ey2ex computes t = (y^2-1)*(1+d y^2)^-1 mod p and
selects branchlessly between the square-root candidate and its negation:
the output x satisfies (x[0] xor parity) and 1 == 0 except when the
candidate is zero, in which case x = 0 irrespective of parity; the
returned bit is 1 exactly when x^2 = t mod p (and hence 0 for any y that
is not the y-coordinate of a point on the curve). -/
theorem ey2ex_spec (y parity : Nat) :
    ((ey2ex y parity).2 = true ↔
      (ey2ex y parity).1 * (ey2ex y parity).1 % p25519 = ey2ex_t y % p25519)
    ∧ ((((ey2ex y parity).1 ^^^ parity) &&& 1 = 0)
        ∨ (ey2ex_cand y = 0 ∧ (ey2ex y parity).1 = 0)) := by
  constructor
  · rw [ey2ex_snd_eq]
    exact f25519_eq_normalize_iff _ _
  · exact select_neg_parity (ey2ex_cand y) parity (f25519_sqrt_lt _)

/-- C6 (counterexample): at y = 1 with parity bit 1 the function returns
x = 0 and ok, but the claimed low-bit condition (x[0] xor parity) and 1 == 0
fails: no square root of t = 0 with the requested parity exists. -/
theorem ey2ex_claim_counterexample :
    ey2ex 1 1 = (0, true) ∧ ¬ (((ey2ex 1 1).1 ^^^ 1) &&& 1 = 0) := by
  constructor
  · decide
  · decide

/-! ### Claim C7: the e2w / w2e roundtrip. -/

theorem morph25519_e2w_fst (ex ey : Nat) :
    (morph25519_e2w ex ey).1 =
      f25519_normalize (f25519_add
        (f25519_mul (f25519_add 1 ey) (f25519_inv (f25519_sub 1 ey))) f25519_delta) := rfl

theorem morph25519_e2w_snd (ex ey : Nat) :
    (morph25519_e2w ex ey).2 =
      f25519_normalize (f25519_mul (f25519_mul f25519_c (f25519_add 1 ey))
        (f25519_inv (f25519_mul (f25519_sub 1 ey) ex))) := rfl

theorem morph25519_w2e_fst (wx wy : Nat) :
    (morph25519_w2e wx wy).1 =
      f25519_normalize (f25519_mul
        (f25519_mul f25519_c (f25519_sub (f25519_mul 3 wx) f25519_A))
        (f25519_inv (f25519_mul 3 wy))) := rfl

theorem morph25519_w2e_snd (wx wy : Nat) :
    (morph25519_w2e wx wy).2 =
      f25519_normalize (f25519_mul
        (f25519_sub (f25519_sub (f25519_mul 3 wx) f25519_A) 3)
        (f25519_inv (f25519_add (f25519_sub (f25519_mul 3 wx) f25519_A) 3))) := rfl

theorem nat_eq_of_zmod_cast_eq {a b : Nat} (ha : a < p25519) (hb : b < p25519)
    (h : ((a : ℕ) : ZMod p25519) = ((b : ℕ) : ZMod p25519)) : a = b := by
  have h2 : ((a : ℕ) : ZMod p25519).val = ((b : ℕ) : ZMod p25519).val := by rw [h]
  rwa [ZMod.val_cast_of_lt ha, ZMod.val_cast_of_lt hb] at h2

theorem three_delta_cast :
    (3 : ZMod p25519) * ((f25519_delta : ℕ) : ZMod p25519) = ((f25519_A : ℕ) : ZMod p25519) := by
  have h : (3 * f25519_delta : ℕ) = p25519 + f25519_A := by decide
  calc (3 : ZMod p25519) * ((f25519_delta : ℕ) : ZMod p25519)
      = ((3 * f25519_delta : ℕ) : ZMod p25519) := by push_cast; ring
    _ = ((p25519 + f25519_A : ℕ) : ZMod p25519) := by rw [h]
    _ = ((f25519_A : ℕ) : ZMod p25519) := by push_cast [ZMod.natCast_self]; ring

theorem f25519_c_cast_ne_zero : ((f25519_c : ℕ) : ZMod p25519) ≠ 0 := by
  rw [Ne, ZMod.natCast_zmod_eq_zero_iff_dvd]
  decide

theorem three_cast_ne_zero : (3 : ZMod p25519) ≠ 0 := by
  have h : ((3 : ℕ) : ZMod p25519) ≠ 0 := by
    rw [Ne, ZMod.natCast_zmod_eq_zero_iff_dvd]
    decide
  simpa using h

theorem six_cast_ne_zero : (6 : ZMod p25519) ≠ 0 := by
  have h : ((6 : ℕ) : ZMod p25519) ≠ 0 := by
    rw [Ne, ZMod.natCast_zmod_eq_zero_iff_dvd]
    decide
  simpa using h

set_option linter.unusedVariables false in
/-- C7: for every non-exceptional affine point (ex, ey) on the Edwards
curve (ex nonzero and ey distinct from 1 and -1 mod p), applying
morph25519_w2e to the output of morph25519_e2w recovers (ex, ey) as
canonical residues mod p.  (The on-curve and nonzero-ex hypotheses of
the claim are not needed by the algebra; they are kept as stated.) -/
theorem e2w_w2e_roundtrip (ex ey : Nat)
    (hcurve : -((ex : ℕ) : ZMod p25519) ^ 2 + ((ey : ℕ) : ZMod p25519) ^ 2
        = 1 + ((ed25519_d : ℕ) : ZMod p25519) * ((ex : ℕ) : ZMod p25519) ^ 2
            * ((ey : ℕ) : ZMod p25519) ^ 2)
    (hx : ((ex : ℕ) : ZMod p25519) ≠ 0)
    (hy1 : ((ey : ℕ) : ZMod p25519) ≠ 1)
    (hym1 : ((ey : ℕ) : ZMod p25519) ≠ -1) :
    (morph25519_w2e (morph25519_e2w ex ey).1 (morph25519_e2w ex ey).2).1 = ex % p25519
    ∧ (morph25519_w2e (morph25519_e2w ex ey).1 (morph25519_e2w ex ey).2).2 = ey % p25519 := by
  set X := ((ex : ℕ) : ZMod p25519) with hX
  set Y := ((ey : ℕ) : ZMod p25519) with hY
  set C := ((f25519_c : ℕ) : ZMod p25519) with hC
  set D := ((f25519_delta : ℕ) : ZMod p25519) with hD
  have hu : (1 : ZMod p25519) - Y ≠ 0 := by
    intro h
    exact hy1 (by linear_combination -h)
  have hv : (1 : ZMod p25519) + Y ≠ 0 := by
    intro h
    exact hym1 (by linear_combination h)
  have hCne : C ≠ 0 := f25519_c_cast_ne_zero
  have h3 : (3 : ZMod p25519) ≠ 0 := three_cast_ne_zero
  have h6 : (6 : ZMod p25519) ≠ 0 := six_cast_ne_zero
  have hwx : (((morph25519_e2w ex ey).1 : ℕ) : ZMod p25519)
      = (1 + Y) * (1 - Y)⁻¹ + D := by
    rw [morph25519_e2w_fst]
    simp only [f25519_normalize_cast, f25519_add_cast, f25519_mul_cast, f25519_inv_cast,
      f25519_sub_cast, Nat.cast_one]
  have hwy : (((morph25519_e2w ex ey).2 : ℕ) : ZMod p25519)
      = C * (1 + Y) * ((1 - Y) * X)⁻¹ := by
    rw [morph25519_e2w_snd]
    simp only [f25519_normalize_cast, f25519_add_cast, f25519_mul_cast, f25519_inv_cast,
      f25519_sub_cast, Nat.cast_one]
  constructor
  · apply nat_eq_of_zmod_cast_eq (by rw [morph25519_w2e_fst]; exact f25519_normalize_lt _)
      (Nat.mod_lt _ p25519_pos)
    rw [ZMod.natCast_mod, morph25519_w2e_fst]
    simp only [f25519_normalize_cast, f25519_add_cast, f25519_mul_cast, f25519_inv_cast,
      f25519_sub_cast, Nat.cast_ofNat]
    rw [hwx, hwy, ← three_delta_cast]
    have e2 : (3 : ZMod p25519) * (C * (1 + Y) * ((1 - Y) * X)⁻¹)
        = (3 * C * (1 + Y)) * ((1 - Y) * X)⁻¹ := by ring
    rw [e2, mul_inv, inv_inv]
    field_simp
    ring
  · apply nat_eq_of_zmod_cast_eq (by rw [morph25519_w2e_snd]; exact f25519_normalize_lt _)
      (Nat.mod_lt _ p25519_pos)
    rw [ZMod.natCast_mod, morph25519_w2e_snd]
    simp only [f25519_normalize_cast, f25519_add_cast, f25519_mul_cast, f25519_inv_cast,
      f25519_sub_cast, Nat.cast_ofNat]
    rw [hwx, ← three_delta_cast]
    have e3 : (3 : ZMod p25519) * ((1 + Y) * (1 - Y)⁻¹ + D) - 3 * D
        = 3 * ((1 + Y) * (1 - Y)⁻¹) := by ring
    rw [e3]
    have e4 : (3 : ZMod p25519) * ((1 + Y) * (1 - Y)⁻¹) + 3 = 6 * (1 - Y)⁻¹ := by
      field_simp
      ring
    rw [e4, mul_inv, inv_inv]
    field_simp
    ring

/-- C7 (witness): the roundtrip theorem applied at the Ed25519 base
point, whose coordinates are a non-exceptional on-curve input. -/
theorem e2w_w2e_roundtrip_witness :
    (morph25519_w2e (morph25519_e2w ed25519_base.1 ed25519_base.2).1
        (morph25519_e2w ed25519_base.1 ed25519_base.2).2).1 = ed25519_base.1 % p25519
    ∧ (morph25519_w2e (morph25519_e2w ed25519_base.1 ed25519_base.2).1
        (morph25519_e2w ed25519_base.1 ed25519_base.2).2).2 = ed25519_base.2 % p25519 :=
  e2w_w2e_roundtrip ed25519_base.1 ed25519_base.2 (by decide) (by decide) (by decide) (by decide)

/-! ### Claim C4: the structure of c25519_smult. -/

/-- The ladder iteration exactly as the claim describes it: at bit i the
doubling P2m = 2 Pm, the differential addition P2m1 = Pm + Pm-1 with
difference q, the differential addition P2mp1 = P2m + q with difference
P2m1, and routing (P2mp1, P2m) or (P2m, P2m1) into (Pm, Pm-1) on bit i
of e. -/
def claimLadderStep (q e i : Nat) (st : (Nat × Nat) × (Nat × Nat)) :
    (Nat × Nat) × (Nat × Nat) :=
  let P2m := xc_double st.1.1 st.1.2
  let P2m1 := xc_diffadd q 1 st.1.1 st.1.2 st.2.1 st.2.2
  let P2mp1 := xc_diffadd P2m1.1 P2m1.2 P2m.1 P2m.2 q 1
  if e.testBit i then (P2mp1, P2m) else (P2m, P2m1)

/-- The claim-side loop, i = fuel-1 down to 0. -/
def claimLadderIter (q e : Nat) :
    Nat → (Nat × Nat) × (Nat × Nat) → (Nat × Nat) × (Nat × Nat)
  | 0, st => st
  | i+1, st => claimLadderIter q e i (claimLadderStep q e i st)

/-- The scalar multiplication as described by the claim: initial state
P_m = (q, 1), P_m-1 = (1, 0), 254 iterations for i = 253 down to 0, and
the result normalize(X_m * Z_m^-1). -/
def claimSmult (q e : Nat) : Nat :=
  let st := claimLadderIter q e 254 ((q, 1), (1, 0))
  f25519_normalize (f25519_mul st.1.1 (f25519_inv st.1.2))

theorem f25519_mul_comm (a b : Nat) : f25519_mul a b = f25519_mul b a := by
  unfold f25519_mul
  rw [Nat.mul_comm]

theorem ladderStep_eq_claim (q e i : Nat) (st : (Nat × Nat) × (Nat × Nat)) :
    ladderStep q e i st = claimLadderStep q e i st := by
  unfold ladderStep claimLadderStep f25519_select
  by_cases h : e.testBit i
  · rw [Nat.testBit_to_div_mod, decide_eq_true_iff] at h
    have hb : (e >>> i) &&& 1 = 1 := by
      rw [Nat.and_one_is_mod, Nat.shiftRight_eq_div_pow, h]
    simp [h, hb, Nat.testBit_to_div_mod]
  · rw [Nat.testBit_to_div_mod, decide_eq_true_iff] at h
    have h2 := Nat.mod_two_eq_zero_or_one (e / 2 ^ i)
    have hb : (e >>> i) &&& 1 = 0 := by
      rw [Nat.and_one_is_mod, Nat.shiftRight_eq_div_pow]
      omega
    simp [hb, Nat.testBit_to_div_mod, h]

theorem ladderIter_eq_claim (q e : Nat) :
    ∀ fuel st, ladderIter q e fuel st = claimLadderIter q e fuel st := by
  intro fuel
  induction fuel with
  | zero => intro st; rfl
  | succ i ih =>
    intro st
    rw [ladderIter, claimLadderIter, ladderStep_eq_claim, ih]

/-- C4: for every 32-byte q and scalar e, c25519_smult is the ladder the
claim describes: state initialized to P_m = (q, 1) and P_m-1 = (1, 0),
254 iterations for i = 253 down to 0 each performing one differential
doubling and two differential additions with a branchless routing on bit
i of e, and the output normalize(X_m * Z_m^-1).  (The assumption that
bit 254 of e is set is not needed for the equality.) -/
theorem c25519_smult_eq_claim (q e : Nat) : c25519_smult q e = claimSmult q e := by
  unfold c25519_smult claimSmult projective_ladder
  rw [ladderIter_eq_claim]
  exact congrArg f25519_normalize (f25519_mul_comm _ _)

/-! ### Claims C2 and C10: ecdsa_sign. -/

/-- The r of the claim: the x-coordinate of k*G (computed by the Edwards
engine and unprojected), mapped to Weierstrass form, reduced mod n. -/
def ecdsaSignR (k : Nat) : Nat :=
  (morph25519_e2w (ed25519_unproject (ed25519_smult ed25519_base k)).1
    (ed25519_unproject (ed25519_smult ed25519_base k)).2).1 % n25519

/-- The s of the claim: k^-1 * (z + r*d) mod n with z = floor(e/8). -/
def ecdsaSignS (d e k : Nat) : Nat :=
  fprime_inv k * (e / 8 + ecdsaSignR k * d) % n25519

/-- The buffer behaviour the claim C10 describes: on k = 0 nothing is
written; on r = 0 only the r buffer has been written; otherwise both
buffers are written and the return value depends on s. -/
def claimSignBuffers (r0 s0 d e k : Nat) : Nat × Nat × Nat :=
  if k = 0 then (r0, s0, 0)
  else if ecdsaSignR k = 0 then (ecdsaSignR k, s0, 0)
  else (ecdsaSignR k, ecdsaSignS d e k, if ecdsaSignS d e k = 0 then 0 else 1)

/-- The caller-visible result the claim C2 describes: failure when k, r
or s is zero, otherwise the pair (r, s). -/
def claimSign (d e k : Nat) : Option (Nat × Nat) :=
  if k = 0 ∨ ecdsaSignR k = 0 ∨ ecdsaSignS d e k = 0 then none
  else some (ecdsaSignR k, ecdsaSignS d e k)

theorem ecdsa_sign_r_rfl (k : Nat) :
    fprime_from_bytes (morph25519_e2w (ed25519_unproject (ed25519_smult ed25519_base k)).1
      (ed25519_unproject (ed25519_smult ed25519_base k)).2).1 = ecdsaSignR k := rfl

/-- The normalized product computed for s in ecdsa_sign agrees with the
single-reduction formula of the claim. -/
theorem sign_s_eq (d e k : Nat) :
    fprime_normalize (fprime_mul (fprime_inv k)
      (fprime_add (rshift e 3) (fprime_mul (ecdsaSignR k) d))) = ecdsaSignS d e k := by
  unfold fprime_normalize fprime_mul fprime_add rshift ecdsaSignS
  have h8 : e >>> 3 = e / 8 := by
    rw [Nat.shiftRight_eq_div_pow]
  rw [h8]
  have h1 : (e / 8 + ecdsaSignR k * d % n25519) % n25519
      ≡ e / 8 + ecdsaSignR k * d [MOD n25519] :=
    (Nat.mod_modEq _ _).trans ((Nat.ModEq.refl _).add (Nat.mod_modEq _ _))
  have h2 : fprime_inv k * ((e / 8 + ecdsaSignR k * d % n25519) % n25519)
      ≡ fprime_inv k * (e / 8 + ecdsaSignR k * d) [MOD n25519] := h1.mul_left _
  calc fprime_inv k * ((e / 8 + ecdsaSignR k * d % n25519) % n25519) % n25519 % n25519
      = fprime_inv k * ((e / 8 + ecdsaSignR k * d % n25519) % n25519) % n25519 :=
        Nat.mod_mod_of_dvd _ (dvd_refl _)
    _ = fprime_inv k * (e / 8 + ecdsaSignR k * d) % n25519 := h2

/-- Shared characterization of the state-passing sign routine. -/
theorem sign_st_buffers_aux (r0 s0 d e k : Nat) :
    ecdsa_sign_st r0 s0 d e k = claimSignBuffers r0 s0 d e k := by
  unfold ecdsa_sign_st claimSignBuffers
  simp only [fprime_eq, beq_iff_eq]
  by_cases hk : k = 0
  · simp [hk]
  · simp only [hk, if_false, ecdsa_sign_r_rfl, sign_s_eq]
    by_cases hr : ecdsaSignR k = 0
    · simp [hr]
    · simp only [hr, if_false]
      by_cases hs : ecdsaSignS d e k = 0
      · simp [hs]
      · simp [hs]

/-- C10: when k = 0, ecdsa_sign returns 0 immediately and leaves both
output buffers unmodified; the later failure exits happen only after the
r buffer (and for the s = 0 exit also the s buffer) has been written
with its computed value. -/
theorem ecdsa_sign_buffer_behaviour (r0 s0 d e k : Nat) :
    ecdsa_sign_st r0 s0 d e k = claimSignBuffers r0 s0 d e k :=
  sign_st_buffers_aux r0 s0 d e k

/-- C2: ecdsa_sign fails exactly when k is zero, when
r = (x-coordinate of k*G in Weierstrass form) mod n is zero, or when
s = k^-1 (z + r d) mod n with z = floor(e/8) is zero; otherwise it
returns that r and that s. -/
theorem ecdsa_sign_eq_claim (d e k : Nat) : ecdsa_sign d e k = claimSign d e k := by
  unfold ecdsa_sign claimSign
  rw [sign_st_buffers_aux]
  unfold claimSignBuffers
  by_cases hk : k = 0
  · simp [hk]
  · by_cases hr : ecdsaSignR k = 0
    · simp [hk, hr]
    · by_cases hs : ecdsaSignS d e k = 0
      · simp [hk, hr, hs]
      · simp [hk, hr, hs]

/-! ### Claim C1: ecdsa_verify and out-of-range signature scalars. -/

theorem n25519_pos : 0 < n25519 := by norm_num [n25519]

theorem fprime_normalize_lt (a : Nat) : fprime_normalize a < n25519 :=
  Nat.mod_lt _ n25519_pos

theorem f25519_mul_zero_left (a : Nat) : f25519_mul 0 a = 0 := by
  unfold f25519_mul
  rw [Nat.zero_mul, Nat.zero_mod]

theorem f25519_mul_zero_right (a : Nat) : f25519_mul a 0 = 0 := by
  unfold f25519_mul
  rw [Nat.mul_zero, Nat.zero_mod]

theorem f25519_mul_one_left (a : Nat) : f25519_mul 1 a = a % p25519 := by
  unfold f25519_mul
  rw [Nat.one_mul]

theorem f25519_mul_one_right (a : Nat) : f25519_mul a 1 = a % p25519 := by
  unfold f25519_mul
  rw [Nat.mul_one]

theorem f25519_add_zero_left (a : Nat) : f25519_add 0 a = a % p25519 := by
  unfold f25519_add
  rw [Nat.zero_add]

theorem f25519_add_zero_right (a : Nat) : f25519_add a 0 = a % p25519 := by
  unfold f25519_add
  rw [Nat.add_zero]

theorem f25519_mod_mod (a : Nat) : a % p25519 % p25519 = a % p25519 :=
  Nat.mod_mod_of_dvd _ (dvd_refl _)

/-- Adding the Edwards neutral point (0, 1) returns the other point with
reduced coordinates. -/
theorem ed25519_add_neutral (x y : Nat) :
    ed25519_add (0, 1) (x, y) = (x % p25519, y % p25519) := by
  have h1 : (1 : Nat) % p25519 = 1 := by decide
  have hinv1 : f25519_inv 1 = 1 := by decide
  have hsub : f25519_sub 1 0 = 1 := by decide
  unfold ed25519_add
  simp only [f25519_mul_zero_left, f25519_mul_zero_right, f25519_mul_one_left,
    f25519_mul_one_right, f25519_add_zero_left, f25519_add_zero_right, f25519_mod_mod,
    h1, hinv1, hsub]

theorem edSmAux_zero (P : Nat × Nat) : ∀ fuel, edSmAux P 0 fuel (0, 1) = (0, 1) := by
  intro fuel
  induction fuel with
  | zero => rfl
  | succ i ih =>
    rw [edSmAux]
    simp only [Nat.zero_shiftRight, Nat.zero_and]
    rw [if_neg (by omega)]
    rw [show ed25519_add (0, 1) (0, 1) = ((0 : Nat) % p25519, (1 : Nat) % p25519) from
      ed25519_add_neutral 0 1]
    rw [show ((0 : Nat) % p25519, (1 : Nat) % p25519) = ((0 : Nat), (1 : Nat)) from by decide]
    exact ih

/-- Multiplying any point by the scalar 0 gives the neutral point. -/
theorem ed25519_smult_zero (P : Nat × Nat) : ed25519_smult P 0 = (0, 1) :=
  edSmAux_zero P 256

/-- C1 (counterexample): the signature (r, s) = (delta mod n, n), given
here as literals, has s = n outside [1, n-1] yet is accepted for the
public key (0, 0) and the all-zero digest: with s = 0 mod n both scalars u1 and u2 vanish, the
recomputed point is the Edwards neutral, and its Weierstrass image
delta mod n matches r, so ecdsa_verify returns 1 instead of the claimed
0.  There is no range check in ecdsa_verify. -/
theorem ecdsa_verify_claim_counterexample :
    ecdsa_verify 0 0 0 4824670384888174809315457708695329493830764725513612127905695458081279933559
      7237005577332262213973186563042994240857116359379907606001950938285454250989 = 1
    ∧ ¬ (1 ≤ (7237005577332262213973186563042994240857116359379907606001950938285454250989 : Nat)
          ∧ 7237005577332262213973186563042994240857116359379907606001950938285454250989 ≤ n25519 - 1) := by
  constructor
  · unfold ecdsa_verify ecdsa_verify_wx
    dsimp only []
    rw [show fprime_inv 7237005577332262213973186563042994240857116359379907606001950938285454250989 = 0 from by decide]
    rw [show rshift 0 3 = 0 from rfl]
    rw [show fprime_mul 0 0 = 0 from by decide]
    rw [show fprime_mul 4824670384888174809315457708695329493830764725513612127905695458081279933559 0 = 0 from by decide]
    rw [ed25519_smult_zero, ed25519_smult_zero]
    rw [show ed25519_add (0, 1) (0, 1) = ((0 : Nat) % p25519, (1 : Nat) % p25519) from
      ed25519_add_neutral 0 1]
    rw [show ed25519_unproject ((0 : Nat) % p25519, (1 : Nat) % p25519) = ((0 : Nat), (1 : Nat))
      from by decide]
    dsimp only []
    rw [show morph25519_e2w 0 1 = (f25519_delta, 0) from by decide]
    dsimp only []
    rw [show fprime_normalize f25519_delta = f25519_delta % n25519 from rfl]
    rw [show f25519_eq (f25519_delta % n25519)
      4824670384888174809315457708695329493830764725513612127905695458081279933559 = true from by decide]
    rfl
  · decide

theorem ecdsa_verify_wx_lt (x y e s r : Nat) : ecdsa_verify_wx x y e s r < n25519 := by
  unfold ecdsa_verify_wx
  exact fprime_normalize_lt _

/-- C1 (amended): ecdsa_verify performs no range check on r or s, so an
out-of-range signature scalar is not in general rejected (see the
counterexample with s = n); what does hold is that every r that reads,
as a 32-byte little-endian integer, as a value in [n, p) is rejected:
the recomputed comparison value is a canonical residue mod n and can
never equal such an r. -/
theorem ecdsa_verify_rejects_high_r (x y e r s : Nat)
    (h1 : n25519 ≤ r) (h2 : r < p25519) : ecdsa_verify x y e r s = 0 := by
  unfold ecdsa_verify
  have hw := ecdsa_verify_wx_lt x y e s r
  have hne : f25519_eq (ecdsa_verify_wx x y e s r) r = false := by
    unfold f25519_eq
    rw [beq_eq_false_iff_ne]
    have hnp : n25519 < p25519 := by norm_num [n25519, p25519]
    rw [Nat.mod_eq_of_lt (lt_trans hw hnp), Nat.mod_eq_of_lt h2]
    omega
  rw [hne]
  rfl

/-- C1 (witness): the rejection theorem applied at r = n (out of range)
with all other inputs zero. -/
theorem ecdsa_verify_rejects_high_r_witness : ecdsa_verify 0 0 0 n25519 0 = 0 :=
  ecdsa_verify_rejects_high_r 0 0 0 n25519 0 (le_refl _) (by norm_num [n25519, p25519])
